import Mathlib

/-!
# Verification of the stock/balance consistency core of the viten backend

This file shallowly embeds the business logic of the routes
`incomeRoutes.js`, `debtRoutes.js`, `debtRepaymentRoutes.js`,
`purchasesRoutes.js` and the gain/alert routes, and proves or refutes
the frozen claims about them.

Modelling conventions:
* SQL tables are Lean lists of rows, in insertion order; `SERIAL` ids and
  `created_at` timestamps are `Nat` fields carried on the rows.
* `DOUBLE PRECISION` amounts are modelled as `ℚ`; `INTEGER` columns
  (`pcs`, `available_stock`, `stock_deficiency_threshold`) as `Int`;
  `VARCHAR` dates and names as `String` (SQL string comparison is the
  lexicographic order on `String`).
* JavaScript `x || y` on numbers is modelled by testing the number
  against `0` (the only falsy numeric value representable in `ℚ`);
  `NOT NULL` columns rule the `null`/`NaN` cases out.
* A request handler is a function `State → Request → Result × State`;
  every early-`return` error path yields the unchanged state, exactly as
  the code answers the HTTP request before issuing any write.
-/

namespace Viten

/-- A row of the `purchases` table (a purchase lot). -/
structure PurchaseLot where
  id : Nat
  created_at : Nat
  date : String
  name : String
  pcs : Int
  unit_price : ℚ
  available_stock : Int
  stock_deficiency_threshold : Int
  deriving Repr, DecidableEq

/-- A row of the `income` table (a cash sale). -/
structure IncomeRow where
  id : Nat
  created_at : Nat
  date : String
  name : String
  pcs : Int
  unit_price : ℚ
  total_price : ℚ
  deriving Repr, DecidableEq

/-- A row of the `debts` table (a credit sale). -/
structure DebtRow where
  id : Nat
  created_at : Nat
  date : String
  name : String
  pcs : Int
  unit_price : ℚ
  total_price : ℚ
  amount_payable_now : ℚ
  balance_owed : ℚ
  deriving Repr, DecidableEq

/-- A row of the `debt_repayments` table. -/
structure Repayment where
  id : Nat
  debt_id : Nat
  amount : ℚ
  receipt_number : Option String
  deriving Repr, DecidableEq

/-- The part of the database the stock/balance engines read and write. -/
structure Db where
  purchases : List PurchaseLot
  incomes : List IncomeRow
  debts : List DebtRow
  repayments : List Repayment
  nextIncomeId : Nat
  nextDebtId : Nat
  nextRepId : Nat
  clock : Nat
  deriving Repr, DecidableEq

/-- `SELECT ... FROM purchases WHERE name = ? ORDER BY id DESC LIMIT 1`:
the matching lot with the highest id (ids are a primary key). -/
def findLotMaxId (ps : List PurchaseLot) (nm : String) : Option PurchaseLot :=
  (ps.filter (fun p => p.name = nm)).argmax (fun p => p.id)

/-- `UPDATE purchases SET available_stock = ? WHERE id = ?`. -/
def setLotStock (ps : List PurchaseLot) (i : Nat) (v : Int) : List PurchaseLot :=
  ps.map (fun p => if p.id = i then { p with available_stock := v } else p)

/-- Outcome of a sale-creation request (income or debt). -/
inductive SaleResult where
  | ok
  | validationError
  | itemNotFound
  | insufficientStock (available requested : Int)
  | notFound
  deriving Repr, DecidableEq

/-- Request body for `POST /api/income`. -/
structure IncomeReq where
  date : String
  name : String
  pcs : Int
  unit_price : ℚ
  deriving Repr, DecidableEq

/-- Request body for `POST /api/debts`. -/
structure DebtReq where
  date : String
  name : String
  pcs : Int
  unit_price : ℚ
  total_price : ℚ
  amount_payable_now : Option ℚ
  deriving Repr, DecidableEq

/-- `POST /api/income` (incomeRoutes.js router.post): validate, look up
the inventory lot by exact name preferring the highest id, reject when
missing or when `pcs` exceeds `available_stock`, otherwise insert the
income row (with `total_price = pcs * unit_price` fixed at write time)
and decrement the lot's stock. -/
def createIncome (db : Db) (rq : IncomeReq) : SaleResult × Db :=
  if rq.date = "" ∨ rq.name = "" ∨ rq.pcs = 0 ∨ rq.unit_price = 0 then
    (.validationError, db)
  else
    let total_price : ℚ := (rq.pcs : ℚ) * rq.unit_price
    match findLotMaxId db.purchases rq.name with
    | none => (.itemNotFound, db)
    | some inventoryItem =>
      let salePcs := rq.pcs
      let currentStock := inventoryItem.available_stock
      if salePcs > currentStock then
        (.insufficientStock currentStock salePcs, db)
      else
        let row : IncomeRow :=
          { id := db.nextIncomeId, created_at := db.clock, date := rq.date
            name := rq.name, pcs := rq.pcs, unit_price := rq.unit_price
            total_price := total_price }
        let newStock := currentStock - salePcs
        (.ok,
          { db with
              incomes := db.incomes ++ [row]
              purchases := setLotStock db.purchases inventoryItem.id newStock
              nextIncomeId := db.nextIncomeId + 1
              clock := db.clock + 1 })

/-- `POST /api/debts` (debtRoutes router.post): same lot lookup and stock
check as income creation; on success insert the debt row with
`balance_owed = total_price - amount_payable_now` and decrement stock. -/
def createDebt (db : Db) (rq : DebtReq) : SaleResult × Db :=
  if rq.date = "" ∨ rq.name = "" ∨ rq.pcs = 0 ∨ rq.unit_price = 0 then
    (.validationError, db)
  else
    let totalPrice := rq.total_price
    let amountPayable := (rq.amount_payable_now).getD 0
    let balanceOwed := totalPrice - amountPayable
    match findLotMaxId db.purchases rq.name with
    | none => (.itemNotFound, db)
    | some inventoryItem =>
      let debtPcs := rq.pcs
      let currentStock := inventoryItem.available_stock
      if debtPcs > currentStock then
        (.insufficientStock currentStock debtPcs, db)
      else
        let row : DebtRow :=
          { id := db.nextDebtId, created_at := db.clock, date := rq.date
            name := rq.name, pcs := debtPcs, unit_price := rq.unit_price
            total_price := totalPrice, amount_payable_now := amountPayable
            balance_owed := balanceOwed }
        let newStock := currentStock - debtPcs
        (.ok,
          { db with
              debts := db.debts ++ [row]
              purchases := setLotStock db.purchases inventoryItem.id newStock
              nextDebtId := db.nextDebtId + 1
              clock := db.clock + 1 })

/-- `DELETE /api/income/:id` (incomeRoutes.js router.delete): check the
row exists, then delete it.  The handler issues no purchases update. -/
def deleteIncome (db : Db) (i : Nat) : SaleResult × Db :=
  match db.incomes.find? (fun r => r.id = i) with
  | none => (.notFound, db)
  | some _ =>
    (.ok, { db with incomes := db.incomes.filter (fun r => r.id ≠ i) })

/-- `DELETE /api/debts/:id` (debtRoutes router.delete): fetch the record,
look up the lot by exact name preferring the highest id; if one is found
add the record's `pcs` back to its `available_stock` (silently skipped
otherwise); then delete the debt row. -/
def deleteDebt (db : Db) (i : Nat) : SaleResult × Db :=
  match db.debts.find? (fun r => r.id = i) with
  | none => (.notFound, db)
  | some record =>
    let ps :=
      match findLotMaxId db.purchases record.name with
      | some inventoryItem =>
          setLotStock db.purchases inventoryItem.id
            (inventoryItem.available_stock + record.pcs)
      | none => db.purchases
    (.ok, { db with purchases := ps, debts := db.debts.filter (fun r => r.id ≠ i) })

/-- The `available_stock` recomputation of `PUT /api/purchases/:id`
(purchasesRoutes.js lines 295-300, identical in both route variants):
if `pcs` is supplied and differs from the stored value, shift the stock
by the difference and floor at zero; otherwise keep it. -/
def newAvailableStock (pcsReq : Option Int) (recordPcs stock : Int) : Int :=
  match pcsReq with
  | some p => if p ≠ recordPcs then max 0 (stock + (p - recordPcs)) else stock
  | none => stock

/-- `PUT /api/purchases/:id`, restricted to the fields the claims are
about: `pcs` (COALESCE semantics) and the recomputed `available_stock`. -/
def updatePurchase (db : Db) (i : Nat) (pcsReq : Option Int) : SaleResult × Db :=
  match db.purchases.find? (fun p => p.id = i) with
  | none => (.notFound, db)
  | some record =>
    let stock := newAvailableStock pcsReq record.pcs record.available_stock
    (.ok,
      { db with
          purchases := db.purchases.map (fun p =>
            if p.id = i then
              { p with pcs := pcsReq.getD record.pcs, available_stock := stock }
            else p) })

/-! ## Balance consistency engine (debtRepaymentRoutes.js) -/

/-- Outcome of a repayment request. -/
inductive RepayResult where
  | ok
  | badAmount
  | debtNotFound
  | exceedsBalance (balance : ℚ)
  | repNotFound
  | debtGone
  | negativeBalance
  deriving Repr, DecidableEq

/-- JavaScript padStart with pad character zero and target length 6:
strings of length at least 6 are returned unchanged. -/
def padStart6 (s : String) : String :=
  if s.length < 6 then String.mk (List.replicate (6 - s.length) '0') ++ s else s

/-- `receipt_number = 'REPAY-' + String(repaymentId).padStart(6, '0')`. -/
def receiptNumber (i : Nat) : String :=
  "REPAY-" ++ padStart6 (toString i)

/-- `SELECT ... FROM debts WHERE id = ?`. -/
def findDebt (db : Db) (i : Nat) : Option DebtRow :=
  db.debts.find? (fun d => d.id = i)

/-- `SELECT * FROM debt_repayments WHERE id = ?`. -/
def findRep (db : Db) (i : Nat) : Option Repayment :=
  db.repayments.find? (fun r => r.id = i)

/-- `UPDATE debts SET amount_payable_now = ?, balance_owed = ? WHERE id = ?`
(absolute values computed by the handler from the previously fetched row). -/
def setDebtBalances (ds : List DebtRow) (i : Nat) (paid bal : ℚ) : List DebtRow :=
  ds.map (fun d =>
    if d.id = i then { d with amount_payable_now := paid, balance_owed := bal } else d)

/-- `POST /api/debt-repayments` (debtRepaymentRoutes.js router.post):
reject a non-positive amount; 404 when the debt is absent; reject when
`amount > balance_owed`; otherwise insert the repayment, stamp its
receipt number, and write `balance_owed - amount` /
`amount_payable_now + amount` back onto the debt. -/
def createRepayment (db : Db) (debt_id : Nat) (amount : ℚ) : RepayResult × Db :=
  if amount ≤ 0 then (.badAmount, db)
  else
    match findDebt db debt_id with
    | none => (.debtNotFound, db)
    | some debt =>
      let balanceOwed := debt.balance_owed
      if amount > balanceOwed then (.exceedsBalance balanceOwed, db)
      else
        let repaymentId := db.nextRepId
        let row : Repayment :=
          { id := repaymentId, debt_id := debt_id, amount := amount
            receipt_number := some (receiptNumber repaymentId) }
        let newBalance := balanceOwed - amount
        let newAmountPaid := debt.amount_payable_now + amount
        (.ok,
          { db with
              repayments := db.repayments ++ [row]
              debts := setDebtBalances db.debts debt_id newAmountPaid newBalance
              nextRepId := repaymentId + 1 })

/-- `PUT /api/debt-repayments/:id`: fetch the repayment, take the new
amount (falling back to the stored one), reject non-positive amounts and
a resulting negative balance, otherwise apply `diff = new - old` to the
repayment row and `-diff`/`+diff` to the parent debt. -/
def updateRepayment (db : Db) (i : Nat) (amount : Option ℚ) : RepayResult × Db :=
  match findRep db i with
  | none => (.repNotFound, db)
  | some rep =>
    let newAmount := amount.getD rep.amount
    if newAmount ≤ 0 then (.badAmount, db)
    else
      match findDebt db rep.debt_id with
      | none => (.debtGone, db)
      | some debt =>
        let oldAmount := rep.amount
        let diff := newAmount - oldAmount
        let newBalance := debt.balance_owed - diff
        let newAmountPaid := debt.amount_payable_now + diff
        if newBalance < 0 then (.negativeBalance, db)
        else
          (.ok,
            { db with
                repayments := db.repayments.map (fun r =>
                  if r.id = i then { r with amount := newAmount } else r)
                debts := setDebtBalances db.debts rep.debt_id newAmountPaid newBalance })

/-- `DELETE /api/debt-repayments/:id`: fetch the repayment and its debt,
delete the row, and write `balance_owed + amount` /
`max(0, amount_payable_now - amount)` back onto the debt. -/
def deleteRepayment (db : Db) (i : Nat) : RepayResult × Db :=
  match findRep db i with
  | none => (.repNotFound, db)
  | some rep =>
    let amount := rep.amount
    match findDebt db rep.debt_id with
    | none => (.debtGone, db)
    | some debt =>
      let newBalance := debt.balance_owed + amount
      let newAmountPaid := max 0 (debt.amount_payable_now - amount)
      (.ok,
        { db with
            repayments := db.repayments.filter (fun r => r.id ≠ i)
            debts := setDebtBalances db.debts rep.debt_id newAmountPaid newBalance })

/-- One repayment-lifecycle operation. -/
inductive RepayOp where
  | create (debt_id : Nat) (amount : ℚ)
  | update (i : Nat) (amount : Option ℚ)
  | delete (i : Nat)
  deriving Repr, DecidableEq

/-- Apply an operation, keeping only the resulting state. -/
def applyRepayOp (db : Db) : RepayOp → Db
  | .create debt_id amount => (createRepayment db debt_id amount).2
  | .update i amount => (updateRepayment db i amount).2
  | .delete i => (deleteRepayment db i).2

/-- Apply a sequence of repayment operations. -/
def applyRepayOps (db : Db) (ops : List RepayOp) : Db :=
  ops.foldl applyRepayOp db

/-- The debt fields written at `POST /api/debts` time:
`balance_owed = total_price - amount_payable_now` (claim C3's initial
state "as established at debt creation"). -/
def mkDebtAtCreation (i : Nat) (total payable : ℚ) : DebtRow :=
  { id := i, created_at := 0, date := "", name := "", pcs := 0, unit_price := 0
    total_price := total, amount_payable_now := payable
    balance_owed := total - payable }

/-- The per-debt balance equation the spec asserts
(`balance_owed + amount_payable_now == total_price` for every debt). -/
def BalInv (db : Db) : Prop :=
  ∀ d ∈ db.debts, d.balance_owed + d.amount_payable_now = d.total_price

/-- Sum of the stored amounts of the repayments in `rs` attached to debt `i`. -/
def repSumL (rs : List Repayment) (i : Nat) : ℚ :=
  ((rs.filter (fun r => r.debt_id = i)).map (fun r => r.amount)).sum

/-- Sum of the stored amounts of the repayments attached to debt `i`. -/
def repSum (db : Db) (i : Nat) : ℚ :=
  repSumL db.repayments i

/-- Database well-formedness: primary keys are unique, the repayment id
counter is fresh, repayment amounts are positive (the handlers only ever
insert positive amounts), and each debt's `amount_payable_now` covers the
total of its repayments (true at debt creation when the client supplies a
non-negative `amount_payable_now`, and preserved by the handlers). -/
structure RepayWF (db : Db) : Prop where
  debtIdsNodup : (db.debts.map (fun d => d.id)).Nodup
  repIdsNodup : (db.repayments.map (fun r => r.id)).Nodup
  repFresh : ∀ r ∈ db.repayments, r.id < db.nextRepId
  repPos : ∀ r ∈ db.repayments, 0 < r.amount
  payableCover : ∀ d ∈ db.debts, repSum db d.id ≤ d.amount_payable_now

/-! ## Gain/loss aggregator (gain route in purchasesRoutes.js) -/

/-- Byte-wise string comparison, as SQL `VARCHAR` comparison under the C
collation and the JavaScript `<` on strings both compare code units. -/
def strLtB : List Char → List Char → Bool
  | [], [] => false
  | [], _ :: _ => true
  | _ :: _, [] => false
  | a :: as, b :: bs =>
    if a.val < b.val then true else if b.val < a.val then false else strLtB as bs

/-- `a < b` on strings. -/
def sLt (a b : String) : Bool := strLtB a.data b.data

/-- `a <= b` on strings. -/
def sLe (a b : String) : Bool := !(sLt b a)

/-- `substring(date,1,10)`: the first ten characters of the date. -/
def substr10 (s : String) : String := s.take 10

/-- The gain route's date-range predicate
`substring(date,1,10) >= ? AND substring(date,1,10) <= ?`. -/
def dateInRange (d start stop : String) : Bool :=
  sLe start (substr10 d) && sLe (substr10 d) stop

/-- Query order `ORDER BY date DESC, created_at DESC` on purchases. -/
def purchaseQueryOrder (a b : PurchaseLot) : Prop :=
  (sLt b.date a.date || (a.date = b.date && decide (b.created_at ≤ a.created_at))) = true

instance : DecidableRel purchaseQueryOrder := fun _ _ =>
  inferInstanceAs (Decidable (_ = true))

/-- Query order `ORDER BY date ASC, created_at ASC` on income rows. -/
def incomeQueryOrder (a b : IncomeRow) : Prop :=
  (sLt a.date b.date || (a.date = b.date && decide (a.created_at ≤ b.created_at))) = true

instance : DecidableRel incomeQueryOrder := fun _ _ =>
  inferInstanceAs (Decidable (_ = true))

/-- Query order `ORDER BY date ASC, created_at ASC` on debt rows. -/
def debtQueryOrder (a b : DebtRow) : Prop :=
  (sLt a.date b.date || (a.date = b.date && decide (a.created_at ≤ b.created_at))) = true

instance : DecidableRel debtQueryOrder := fun _ _ =>
  inferInstanceAs (Decidable (_ = true))

/-- `SELECT * FROM purchases ORDER BY date DESC, created_at DESC`:
the lot list in the order in which the gain route scans it. -/
def gainPurchaseList (ps : List PurchaseLot) : List PurchaseLot :=
  List.insertionSort purchaseQueryOrder ps

/-- One row of the gain route's merged output list. -/
structure GainRow where
  rowId : String
  source : String
  date : String
  name : String
  pcs : Int
  cost_unit_price : ℚ
  selling_unit_price : ℚ
  total_cost : ℚ
  total_sale : ℚ
  gain_loss : ℚ
  deriving Repr, DecidableEq

/-- The totals accumulator of the gain route. -/
structure GainTotals where
  total_cost : ℚ
  total_sale : ℚ
  total_gain_loss : ℚ
  deriving Repr, DecidableEq

/-- The gain route's per-income-row computation: cost basis from the
first name-matching lot of the scanned lot list (`Array.prototype.find`),
`0` when none; `total_sale = parseFloat(total_price) || unit_price*pcs`,
the fallback firing exactly when the stored `total_price` is falsy. -/
def mkIncomeGainRow (scanned : List PurchaseLot) (s : IncomeRow) : GainRow :=
  let inventoryItem := scanned.find? (fun p => p.name = s.name)
  let cost_unit_price := (inventoryItem.map (fun p => p.unit_price)).getD 0
  let selling_unit_price := s.unit_price
  let pcs := s.pcs
  let total_cost := cost_unit_price * (pcs : ℚ)
  let total_sale := if s.total_price = 0 then selling_unit_price * (pcs : ℚ) else s.total_price
  { rowId := toString s.id, source := "income", date := s.date, name := s.name
    pcs := pcs, cost_unit_price := cost_unit_price
    selling_unit_price := selling_unit_price, total_cost := total_cost
    total_sale := total_sale, gain_loss := total_sale - total_cost }

/-- The gain route's per-debt-row computation (same shape, tagged
`source = debt`, id rendered as `debt-<id>`). -/
def mkDebtGainRow (scanned : List PurchaseLot) (d : DebtRow) : GainRow :=
  let inventoryItem := scanned.find? (fun p => p.name = d.name)
  let cost_unit_price := (inventoryItem.map (fun p => p.unit_price)).getD 0
  let selling_unit_price := d.unit_price
  let pcs := d.pcs
  let total_cost := cost_unit_price * (pcs : ℚ)
  let total_sale := if d.total_price = 0 then selling_unit_price * (pcs : ℚ) else d.total_price
  { rowId := "debt-" ++ toString d.id, source := "debt", date := d.date, name := d.name
    pcs := pcs, cost_unit_price := cost_unit_price
    selling_unit_price := selling_unit_price, total_cost := total_cost
    total_sale := total_sale, gain_loss := total_sale - total_cost }

/-- The final JavaScript sort of the merged list: stable, by date only. -/
def combinedOrder (a b : GainRow) : Prop := sLe a.date b.date = true

instance : DecidableRel combinedOrder := fun _ _ =>
  inferInstanceAs (Decidable (_ = true))

/-- Result of `GET /api/gain`. -/
structure GainResult where
  gain : List GainRow
  totals : GainTotals
  startDate : String
  endDate : String
  deriving Repr, DecidableEq

/-- `GET /api/gain?startDate=&endDate=`: fetch all purchases (date-DESC
order), the income and debt rows whose date (first ten characters) lies
in the range, build the per-row gain records, merge, sort by date, and
reduce the totals. -/
def getGainLoss (ps : List PurchaseLot) (incomes : List IncomeRow)
    (debts : List DebtRow) (start stop : String) : GainResult :=
  let scanned := gainPurchaseList ps
  let incomesInRange :=
    List.insertionSort incomeQueryOrder
      (incomes.filter (fun s => dateInRange s.date start stop))
  let debtsInRange :=
    List.insertionSort debtQueryOrder
      (debts.filter (fun d => dateInRange d.date start stop))
  let combined :=
    incomesInRange.map (mkIncomeGainRow scanned)
      ++ debtsInRange.map (mkDebtGainRow scanned)
  let sorted := List.insertionSort combinedOrder combined
  let totals := sorted.foldl
    (fun acc r =>
      { acc with
          total_cost := acc.total_cost + r.total_cost
          total_sale := acc.total_sale + r.total_sale
          total_gain_loss := acc.total_gain_loss + r.gain_loss })
    { total_cost := 0, total_sale := 0, total_gain_loss := 0 }
  { gain := sorted, totals := totals, startDate := start, endDate := stop }

/-- Modelled from the spec's words for claim C7 only (the claim's
cost-basis rule): the first lot whose name matches,
"by insertion order in the unfiltered lot list". -/
def specCostLotByInsertionOrder (ps : List PurchaseLot) (nm : String) : Option PurchaseLot :=
  ps.find? (fun p => p.name = nm)

/-! ## Deficiency alerting (alerts route in purchasesRoutes.js) -/

/-- Query order `ORDER BY p.available_stock ASC`. -/
def alertOrder (a b : PurchaseLot) : Prop := a.available_stock ≤ b.available_stock

instance : DecidableRel alertOrder := fun a b =>
  inferInstanceAs (Decidable (a.available_stock ≤ b.available_stock))

/-- One alert row: the selected lot plus the recomputed `pcs_sold`. -/
structure AlertRow where
  lot : PurchaseLot
  pcs_sold : Int
  deriving Repr, DecidableEq

/-- `SUM(pcs) FROM income WHERE name = ?` plus
`SUM(pcs) FROM debts WHERE name = ?`. -/
def pcsSold (incomes : List IncomeRow) (debts : List DebtRow) (nm : String) : Int :=
  ((incomes.filter (fun r => r.name = nm)).map (fun r => r.pcs)).sum
    + ((debts.filter (fun r => r.name = nm)).map (fun r => r.pcs)).sum

/-- `GET /api/stock/alerts`: select the lots with
`stock_deficiency_threshold > 0 AND available_stock <= threshold`,
ordered by `available_stock` ascending, and attach to each the total
`pcs` sold under its name via income and debts. -/
def getDeficiencyAlerts (ps : List PurchaseLot) (incomes : List IncomeRow)
    (debts : List DebtRow) : List AlertRow :=
  let selected := ps.filter (fun p =>
    0 < p.stock_deficiency_threshold && p.available_stock ≤ p.stock_deficiency_threshold)
  (List.insertionSort alertOrder selected).map
    (fun p => { lot := p, pcs_sold := pcsSold incomes debts p.name })

/-! ## Concrete states used by counterexamples and witnesses -/

/-- A single inventory lot `A` with five units available. -/
def exLotA : PurchaseLot :=
  { id := 1, created_at := 0, date := "2024-01-01", name := "A", pcs := 10
    unit_price := 10, available_stock := 5, stock_deficiency_threshold := 0 }

/-- A recorded cash sale of three units of `A`. -/
def exIncomeA : IncomeRow :=
  { id := 1, created_at := 1, date := "2024-01-02", name := "A", pcs := 3
    unit_price := 15, total_price := 45 }

/-- The empty database. -/
def emptyDb : Db :=
  { purchases := [], incomes := [], debts := [], repayments := []
    nextIncomeId := 1, nextDebtId := 1, nextRepId := 1, clock := 0 }

/-- Database with one lot of `A` (stock 5) and one income row selling 3
units of `A`. -/
def exSaleDb : Db :=
  { emptyDb with purchases := [exLotA], incomes := [exIncomeA] }

/-- A debt created through `POST /api/debts` with `total_price = 95` and
a (never validated) negative `amount_payable_now = -5`; its stored
`balance_owed` is `95 - (-5) = 100` and the balance equation holds. -/
def exBadRepayDb : Db :=
  { emptyDb with debts := [mkDebtAtCreation 1 95 (-5)] }

/-- A debt created with `total_price = 1000` and `amount_payable_now = 0`
(the spec's own scenario). -/
def exGoodRepayDb : Db :=
  { emptyDb with debts := [mkDebtAtCreation 1 1000 0] }

/-- Two lots sharing the name `X`: the earlier (insertion order first)
was bought at unit price 10, the later at unit price 20. -/
def exLotX1 : PurchaseLot :=
  { id := 1, created_at := 0, date := "2024-01-01", name := "X", pcs := 5
    unit_price := 10, available_stock := 5, stock_deficiency_threshold := 0 }

/-- The later lot of `X` (higher id, later date, later created_at). -/
def exLotX2 : PurchaseLot :=
  { id := 2, created_at := 1, date := "2024-02-01", name := "X", pcs := 5
    unit_price := 20, available_stock := 5, stock_deficiency_threshold := 0 }

/-- A sale of three units of `X` at unit price 15. -/
def exIncomeX : IncomeRow :=
  { id := 1, created_at := 2, date := "2024-03-01", name := "X", pcs := 3
    unit_price := 15, total_price := 45 }

/-- A recorded credit sale of three units of `A`. -/
def exDebtA : DebtRow :=
  { id := 1, created_at := 1, date := "2024-01-02", name := "A", pcs := 3
    unit_price := 15, total_price := 45, amount_payable_now := 20
    balance_owed := 25 }

/-- Database with one lot of `A` (stock 5) and one debt row selling 3
units of `A`. -/
def exDebtSaleDb : Db :=
  { emptyDb with purchases := [exLotA], debts := [exDebtA] }

/-- The gain row computed for `exIncomeX` against the two `X` lots. -/
def exGainRow : GainRow :=
  mkIncomeGainRow (gainPurchaseList [exLotX1, exLotX2]) exIncomeX

/-- A lot below its deficiency threshold (stock 3, threshold 5). -/
def exAlertLot : PurchaseLot :=
  { id := 3, created_at := 2, date := "2024-01-05", name := "A", pcs := 10
    unit_price := 10, available_stock := 3, stock_deficiency_threshold := 5 }

/-- The repayment row inserted by `createRepayment` on a fresh database
(id 1, debt 1, amount 100). -/
def exRep100 : Repayment :=
  { id := 1, debt_id := 1, amount := 100, receipt_number := some (receiptNumber 1) }

/-- The state after recording a repayment of 100 on `exBadRepayDb`. -/
def exBadDb1 : Db :=
  { exBadRepayDb with
      repayments := [exRep100],
      debts := setDebtBalances exBadRepayDb.debts 1
        ((mkDebtAtCreation 1 95 (-5)).amount_payable_now + 100)
        ((mkDebtAtCreation 1 95 (-5)).balance_owed - 100),
      nextRepId := 2 }

instance : IsTotal PurchaseLot alertOrder :=
  ⟨fun a b => le_total a.available_stock b.available_stock⟩

instance : IsTrans PurchaseLot alertOrder :=
  ⟨fun _ _ _ hab hbc => le_trans hab hbc⟩

/-! ## General lemmas -/

theorem mem_insertionSort {α : Type} (r : α → α → Prop) [DecidableRel r]
    {l : List α} {a : α} : a ∈ List.insertionSort r l ↔ a ∈ l :=
  (List.perm_insertionSort r l).mem_iff

theorem sum_map_insertionSort {α : Type} (r : α → α → Prop) [DecidableRel r]
    (l : List α) (f : α → ℚ) :
    ((List.insertionSort r l).map f).sum = (l.map f).sum :=
  ((List.perm_insertionSort r l).map f).sum_eq

theorem find?_map_ite {α : Type} (l : List α) (key : α → Nat) (i : Nat)
    (f : α → α) (hf : ∀ a, key (f a) = key a) :
    (l.map (fun a => if key a = i then f a else a)).find? (fun a => key a = i)
      = (l.find? (fun a => key a = i)).map f := by
  induction l with
  | nil => rfl
  | cons a tl ih =>
    by_cases h : key a = i
    · simp [List.find?_cons, h, hf]
    · simp [List.find?_cons, h, ih]

theorem map_key_map_ite {α : Type} (l : List α) (key : α → Nat) (i : Nat)
    (f : α → α) (hf : ∀ a, key (f a) = key a) :
    (l.map (fun a => if key a = i then f a else a)).map key = l.map key := by
  induction l with
  | nil => rfl
  | cons a tl ih =>
    by_cases h : key a = i <;> simp [h, hf, ih]

theorem find?_unique_of_nodup {α : Type} {l : List α} {key : α → Nat} {i : Nat}
    {a : α} (hnd : (l.map key).Nodup) (hf : l.find? (fun x => key x = i) = some a) :
    ∀ b ∈ l, key b = i → b = a := by
  induction l with
  | nil => simp at hf
  | cons x tl ih =>
    rw [List.map_cons, List.nodup_cons] at hnd
    by_cases hx : key x = i
    · rw [List.find?_cons_of_pos _ (by simpa using hx)] at hf
      intro b hb hbi
      rcases List.mem_cons.mp hb with hb1 | hb1
      · rw [hb1, Option.some_inj.mp hf]
      · have : key b ∈ tl.map key := List.mem_map_of_mem key hb1
        rw [hbi, ← hx] at this
        exact absurd this hnd.1
    · rw [List.find?_cons_of_neg _ (by simpa using hx)] at hf
      intro b hb hbi
      rcases List.mem_cons.mp hb with hb1 | hb1
      · exact absurd (hb1 ▸ hbi) hx
      · exact ih hnd.2 hf b hb1 hbi

theorem map_ite_id {α : Type} (l : List α) (key : α → Nat) (j : Nat) (f : α → α)
    (h : ∀ a ∈ l, key a ≠ j) :
    l.map (fun a => if key a = j then f a else a) = l := by
  induction l with
  | nil => rfl
  | cons x tl ih =>
    simp only [List.map_cons, if_neg (h x (List.mem_cons_self x tl))]
    rw [ih (fun a ha => h a (List.mem_cons_of_mem x ha))]

theorem filter_ne_id {rs : List Repayment} {j : Nat} (h : ∀ r ∈ rs, r.id ≠ j) :
    rs.filter (fun r => r.id ≠ j) = rs := by
  induction rs with
  | nil => rfl
  | cons x tl ih =>
    rw [List.filter_cons_of_pos (by simpa using h x (List.mem_cons_self x tl))]
    rw [ih (fun a ha => h a (List.mem_cons_of_mem x ha))]

theorem key_ne_of_nodup_head {α : Type} {x : α} {tl : List α} {key : α → Nat}
    (hnd : key x ∉ tl.map key) (hx : key x = j) :
    ∀ a ∈ tl, key a ≠ j := by
  intro a ha haj
  exact hnd (by rw [hx, ← haj]; exact List.mem_map_of_mem key ha)

theorem repSumL_append (rs : List Repayment) (r : Repayment) (i : Nat) :
    repSumL (rs ++ [r]) i = repSumL rs i + (if r.debt_id = i then r.amount else 0) := by
  by_cases h : r.debt_id = i <;>
    simp [repSumL, List.filter_append, h]

theorem repSumL_update (rs : List Repayment) {j : Nat} {r0 : Repayment} (a : ℚ)
    (hnd : (rs.map (fun r => r.id)).Nodup)
    (hf : rs.find? (fun r => r.id = j) = some r0) (i : Nat) :
    repSumL (rs.map (fun r => if r.id = j then { r with amount := a } else r)) i
      = repSumL rs i - (if r0.debt_id = i then r0.amount else 0)
        + (if r0.debt_id = i then a else 0) := by
  induction rs with
  | nil => simp at hf
  | cons x tl ih =>
    rw [List.map_cons, List.nodup_cons] at hnd
    by_cases hx : x.id = j
    · rw [List.find?_cons_of_pos _ (by simpa using hx)] at hf
      have hx0 : x = r0 := Option.some_inj.mp hf
      have htl := map_ite_id tl (fun r => r.id) j
        (fun r => { r with amount := a }) (key_ne_of_nodup_head hnd.1 hx)
      subst hx0
      by_cases hd : x.debt_id = i
      · simp only [repSumL, List.map_cons, if_pos hx, htl, if_pos hd]
        rw [List.filter_cons_of_pos (by simpa using hd),
          List.filter_cons_of_pos (by simpa using hd)]
        simp only [List.map_cons, List.sum_cons]
        ring
      · simp only [repSumL, List.map_cons, if_pos hx, htl, if_neg hd]
        rw [List.filter_cons_of_neg (by simpa using hd),
          List.filter_cons_of_neg (by simpa using hd)]
        ring
    · rw [List.find?_cons_of_neg _ (by simpa using hx)] at hf
      have hthis := ih hnd.2 hf
      by_cases hd : x.debt_id = i
      · simp only [repSumL, List.map_cons, if_neg hx] at hthis ⊢
        rw [List.filter_cons_of_pos (by simpa using hd),
          List.filter_cons_of_pos (by simpa using hd)]
        simp only [List.map_cons, List.sum_cons]
        by_cases hri : r0.debt_id = i
        · rw [if_pos hri] at hthis ⊢
          linarith [hthis]
        · rw [if_neg hri] at hthis ⊢
          linarith [hthis]
      · simp only [repSumL, List.map_cons, if_neg hx] at hthis ⊢
        rw [List.filter_cons_of_neg (by simpa using hd),
          List.filter_cons_of_neg (by simpa using hd)]
        exact hthis

theorem repSumL_erase (rs : List Repayment) {j : Nat} {r0 : Repayment}
    (hnd : (rs.map (fun r => r.id)).Nodup)
    (hf : rs.find? (fun r => r.id = j) = some r0) (i : Nat) :
    repSumL (rs.filter (fun r => r.id ≠ j)) i
      = repSumL rs i - (if r0.debt_id = i then r0.amount else 0) := by
  induction rs with
  | nil => simp at hf
  | cons x tl ih =>
    rw [List.map_cons, List.nodup_cons] at hnd
    by_cases hx : x.id = j
    · rw [List.find?_cons_of_pos _ (by simpa using hx)] at hf
      have hx0 : x = r0 := Option.some_inj.mp hf
      have htl := filter_ne_id (key_ne_of_nodup_head hnd.1 hx)
      subst hx0
      rw [List.filter_cons_of_neg (by simpa using hx)]
      rw [htl]
      by_cases hd : x.debt_id = i
      · simp only [repSumL, if_pos hd]
        rw [List.filter_cons_of_pos (by simpa using hd)]
        simp only [List.map_cons, List.sum_cons]
        ring
      · simp only [repSumL, if_neg hd]
        rw [List.filter_cons_of_neg (by simpa using hd)]
        ring
    · rw [List.find?_cons_of_neg _ (by simpa using hx)] at hf
      have hthis := ih hnd.2 hf
      rw [List.filter_cons_of_pos (by simpa using hx)]
      by_cases hd : x.debt_id = i
      · simp only [repSumL] at hthis ⊢
        rw [List.filter_cons_of_pos (by simpa using hd),
          List.filter_cons_of_pos (by simpa using hd)]
        simp only [List.map_cons, List.sum_cons]
        by_cases hri : r0.debt_id = i
        · rw [if_pos hri] at hthis ⊢
          linarith [hthis]
        · rw [if_neg hri] at hthis ⊢
          linarith [hthis]
      · simp only [repSumL] at hthis ⊢
        rw [List.filter_cons_of_neg (by simpa using hd),
          List.filter_cons_of_neg (by simpa using hd)]
        exact hthis

theorem le_repSumL {rs : List Repayment} {r0 : Repayment} {i : Nat}
    (hpos : ∀ r ∈ rs, 0 < r.amount) (hmem : r0 ∈ rs) (hd : r0.debt_id = i) :
    r0.amount ≤ repSumL rs i := by
  have h1 : r0.amount ∈ (rs.filter (fun r => r.debt_id = i)).map (fun r => r.amount) :=
    List.mem_map_of_mem _ (List.mem_filter.mpr ⟨hmem, by simp [hd]⟩)
  exact List.single_le_sum
    (fun x hx => by
      rcases List.mem_map.mp hx with ⟨r, hr, rfl⟩
      exact le_of_lt (hpos r (List.mem_filter.mp hr).1))
    _ h1

theorem gainTotals_foldl (l : List GainRow) (acc : GainTotals) :
    l.foldl
      (fun acc r =>
        { acc with
            total_cost := acc.total_cost + r.total_cost
            total_sale := acc.total_sale + r.total_sale
            total_gain_loss := acc.total_gain_loss + r.gain_loss })
      acc
      = { total_cost := acc.total_cost + (l.map (fun r => r.total_cost)).sum
          total_sale := acc.total_sale + (l.map (fun r => r.total_sale)).sum
          total_gain_loss := acc.total_gain_loss + (l.map (fun r => r.gain_loss)).sum } := by
  induction l generalizing acc with
  | nil => simp
  | cons x tl ih =>
    rw [List.foldl_cons, ih]
    simp [add_assoc]

theorem setDebtBalances_ids (ds : List DebtRow) (i : Nat) (paid bal : ℚ) :
    (setDebtBalances ds i paid bal).map (fun d => d.id) = ds.map (fun d => d.id) :=
  map_key_map_ite ds (fun d => d.id) i _ (fun _ => rfl)

theorem findDebt_setDebtBalances (ds : List DebtRow) (i : Nat) (paid bal : ℚ) :
    (setDebtBalances ds i paid bal).find? (fun d => d.id = i)
      = (ds.find? (fun d => d.id = i)).map
          (fun d => { d with amount_payable_now := paid, balance_owed := bal }) :=
  find?_map_ite ds (fun d => d.id) i _ (fun _ => rfl)

theorem createRepayment_preserves (db : Db) (debt_id : Nat) (a : ℚ)
    (hwf : RepayWF db) (hinv : BalInv db) :
    RepayWF (createRepayment db debt_id a).2 ∧ BalInv (createRepayment db debt_id a).2 := by
  by_cases ha : a ≤ 0
  · simp only [createRepayment, if_pos ha]
    exact ⟨hwf, hinv⟩
  · cases hfd : findDebt db debt_id with
    | none =>
      simp only [createRepayment, if_neg ha, hfd]
      exact ⟨hwf, hinv⟩
    | some debt =>
      by_cases hgt : a > debt.balance_owed
      · simp only [createRepayment, if_neg ha, hfd, if_pos hgt]
        exact ⟨hwf, hinv⟩
      · have hstate : (createRepayment db debt_id a).2 =
            { db with
                repayments := db.repayments ++
                  [{ id := db.nextRepId, debt_id := debt_id, amount := a
                     receipt_number := some (receiptNumber db.nextRepId) }]
                debts := setDebtBalances db.debts debt_id
                  (debt.amount_payable_now + a) (debt.balance_owed - a)
                nextRepId := db.nextRepId + 1 } := by
          simp only [createRepayment, if_neg ha, hfd, if_neg hgt]
        have hdm : debt ∈ db.debts := List.mem_of_find?_eq_some hfd
        have hdid : debt.id = debt_id := by simpa using List.find?_some hfd
        have huniq : ∀ d2 ∈ db.debts, d2.id = debt_id → d2 = debt :=
          find?_unique_of_nodup hwf.debtIdsNodup hfd
        rw [hstate]
        constructor
        · constructor
          · simpa [setDebtBalances_ids] using hwf.debtIdsNodup
          · rw [List.map_append, List.nodup_append]
            refine ⟨hwf.repIdsNodup, List.nodup_singleton _, ?_⟩
            intro x hx hx2
            simp only [List.map_cons, List.map_nil, List.mem_singleton] at hx2
            rcases List.mem_map.mp hx with ⟨r, hr, rfl⟩
            exact absurd hx2 (Nat.ne_of_lt (hwf.repFresh r hr))
          · intro r hr
            rcases List.mem_append.mp hr with hr | hr
            · exact Nat.lt_succ_of_lt (hwf.repFresh r hr)
            · simp only [List.mem_singleton] at hr
              rw [hr]
              exact Nat.lt_succ_self _
          · intro r hr
            rcases List.mem_append.mp hr with hr | hr
            · exact hwf.repPos r hr
            · simp only [List.mem_singleton] at hr
              rw [hr]
              exact lt_of_not_le ha
          · intro d' hd'
            rcases List.mem_map.mp hd' with ⟨d, hd, rfl⟩
            by_cases h : d.id = debt_id
            · have hde : d = debt := huniq d hd h
              subst hde
              simp only [if_pos h, repSum, repSumL_append]
              have hcov := hwf.payableCover d hd
              rw [h]
              simp only [eq_self_iff_true, if_true, ite_true]
              rw [repSum] at hcov
              rw [h] at hcov
              linarith [hcov]
            · simp only [if_neg h, repSum, repSumL_append]
              have : debt_id ≠ d.id := fun hc => h hc.symm
              simp only [if_neg this, add_zero]
              exact hwf.payableCover d hd
        · intro d' hd'
          rcases List.mem_map.mp hd' with ⟨d, hd, rfl⟩
          by_cases h : d.id = debt_id
          · have hde : d = debt := huniq d hd h
            subst hde
            simp only [if_pos h]
            have := hinv d hd
            show d.balance_owed - a + (d.amount_payable_now + a) = d.total_price
            linarith [this]
          · simp only [if_neg h]
            exact hinv d hd

theorem updateRepayment_preserves (db : Db) (i : Nat) (amount : Option ℚ)
    (hwf : RepayWF db) (hinv : BalInv db) :
    RepayWF (updateRepayment db i amount).2 ∧ BalInv (updateRepayment db i amount).2 := by
  cases hfr : findRep db i with
  | none =>
    simp only [updateRepayment, hfr]
    exact ⟨hwf, hinv⟩
  | some rep =>
    by_cases ha : amount.getD rep.amount ≤ 0
    · simp only [updateRepayment, hfr, if_pos ha]
      exact ⟨hwf, hinv⟩
    · cases hfd : findDebt db rep.debt_id with
      | none =>
        simp only [updateRepayment, hfr, if_neg ha, hfd]
        exact ⟨hwf, hinv⟩
      | some debt =>
        by_cases hnb : debt.balance_owed - (amount.getD rep.amount - rep.amount) < 0
        · simp only [updateRepayment, hfr, if_neg ha, hfd, if_pos hnb]
          exact ⟨hwf, hinv⟩
        · have hstate : (updateRepayment db i amount).2 =
              { db with
                  repayments := db.repayments.map (fun r =>
                    if r.id = i then { r with amount := amount.getD rep.amount } else r)
                  debts := setDebtBalances db.debts rep.debt_id
                    (debt.amount_payable_now + (amount.getD rep.amount - rep.amount))
                    (debt.balance_owed - (amount.getD rep.amount - rep.amount)) } := by
            simp only [updateRepayment, hfr, if_neg ha, hfd, if_neg hnb]
          have hrm : rep ∈ db.repayments := List.mem_of_find?_eq_some hfr
          have hdm : debt ∈ db.debts := List.mem_of_find?_eq_some hfd
          have hdid : debt.id = rep.debt_id := by simpa using List.find?_some hfd
          have huniq : ∀ d2 ∈ db.debts, d2.id = rep.debt_id → d2 = debt :=
            find?_unique_of_nodup hwf.debtIdsNodup hfd
          rw [hstate]
          constructor
          · constructor
            · simpa [setDebtBalances_ids] using hwf.debtIdsNodup
            · show ((db.repayments.map (fun r =>
                  if r.id = i then { r with amount := amount.getD rep.amount } else r)).map
                    (fun r => r.id)).Nodup
              rw [map_key_map_ite db.repayments (fun r => r.id) i
                (fun r => { r with amount := amount.getD rep.amount }) (fun _ => rfl)]
              exact hwf.repIdsNodup
            · intro r hr
              rcases List.mem_map.mp hr with ⟨r0, hr0, rfl⟩
              have hid : (if r0.id = i
                  then { r0 with amount := amount.getD rep.amount } else r0).id = r0.id := by
                by_cases h : r0.id = i
                · rw [if_pos h]
                · rw [if_neg h]
              rw [hid]
              exact hwf.repFresh r0 hr0
            · intro r hr
              rcases List.mem_map.mp hr with ⟨r0, hr0, rfl⟩
              by_cases h : r0.id = i
              · simp only [if_pos h]
                exact lt_of_not_le ha
              · simp only [if_neg h]
                exact hwf.repPos r0 hr0
            · intro d' hd'
              rcases List.mem_map.mp hd' with ⟨d, hd, rfl⟩
              have hsum := repSumL_update db.repayments (amount.getD rep.amount)
                hwf.repIdsNodup hfr
              by_cases h : d.id = rep.debt_id
              · have hde : d = debt := huniq d hd h
                subst hde
                simp only [if_pos h, repSum]
                rw [h, hsum rep.debt_id]
                simp only [eq_self_iff_true, if_true, ite_true]
                have hcov := hwf.payableCover d hd
                rw [repSum, h] at hcov
                linarith [hcov]
              · simp only [if_neg h, repSum]
                rw [hsum d.id]
                have : rep.debt_id ≠ d.id := fun hc => h hc.symm
                simp only [if_neg this, sub_zero, add_zero]
                exact hwf.payableCover d hd
          · intro d' hd'
            rcases List.mem_map.mp hd' with ⟨d, hd, rfl⟩
            by_cases h : d.id = rep.debt_id
            · have hde : d = debt := huniq d hd h
              subst hde
              simp only [if_pos h]
              have := hinv d hd
              show d.balance_owed - (amount.getD rep.amount - rep.amount)
                  + (d.amount_payable_now + (amount.getD rep.amount - rep.amount))
                  = d.total_price
              linarith [this]
            · simp only [if_neg h]
              exact hinv d hd

theorem deleteRepayment_preserves (db : Db) (i : Nat)
    (hwf : RepayWF db) (hinv : BalInv db) :
    RepayWF (deleteRepayment db i).2 ∧ BalInv (deleteRepayment db i).2 := by
  cases hfr : findRep db i with
  | none =>
    simp only [deleteRepayment, hfr]
    exact ⟨hwf, hinv⟩
  | some rep =>
    cases hfd : findDebt db rep.debt_id with
    | none =>
      simp only [deleteRepayment, hfr, hfd]
      exact ⟨hwf, hinv⟩
    | some debt =>
      have hstate : (deleteRepayment db i).2 =
          { db with
              repayments := db.repayments.filter (fun r => r.id ≠ i)
              debts := setDebtBalances db.debts rep.debt_id
                (max 0 (debt.amount_payable_now - rep.amount))
                (debt.balance_owed + rep.amount) } := by
        simp only [deleteRepayment, hfr, hfd]
      have hrm : rep ∈ db.repayments := List.mem_of_find?_eq_some hfr
      have hdm : debt ∈ db.debts := List.mem_of_find?_eq_some hfd
      have hdid : debt.id = rep.debt_id := by simpa using List.find?_some hfd
      have huniq : ∀ d2 ∈ db.debts, d2.id = rep.debt_id → d2 = debt :=
        find?_unique_of_nodup hwf.debtIdsNodup hfd
      have hamt : rep.amount ≤ repSumL db.repayments rep.debt_id :=
        le_repSumL hwf.repPos hrm rfl
      have hcovd := hwf.payableCover debt hdm
      rw [repSum, hdid] at hcovd
      have hpay : rep.amount ≤ debt.amount_payable_now := le_trans hamt hcovd
      have hmax : max 0 (debt.amount_payable_now - rep.amount)
          = debt.amount_payable_now - rep.amount :=
        max_eq_right (by linarith)
      rw [hstate]
      constructor
      · constructor
        · simpa [setDebtBalances_ids] using hwf.debtIdsNodup
        · show ((db.repayments.filter (fun r => r.id ≠ i)).map (fun r => r.id)).Nodup
          exact List.Nodup.sublist ((List.filter_sublist _).map _) hwf.repIdsNodup
        · intro r hr
          exact hwf.repFresh r (List.mem_of_mem_filter hr)
        · intro r hr
          exact hwf.repPos r (List.mem_of_mem_filter hr)
        · intro d' hd'
          rcases List.mem_map.mp hd' with ⟨d, hd, rfl⟩
          have hsum := repSumL_erase db.repayments hwf.repIdsNodup hfr
          by_cases h : d.id = rep.debt_id
          · have hde : d = debt := huniq d hd h
            subst hde
            simp only [if_pos h, repSum]
            rw [h, hsum rep.debt_id]
            simp only [eq_self_iff_true, if_true, ite_true]
            rw [hmax]
            linarith [hcovd]
          · simp only [if_neg h, repSum]
            rw [hsum d.id]
            have : rep.debt_id ≠ d.id := fun hc => h hc.symm
            simp only [if_neg this, sub_zero]
            exact hwf.payableCover d hd
      · intro d' hd'
        rcases List.mem_map.mp hd' with ⟨d, hd, rfl⟩
        by_cases h : d.id = rep.debt_id
        · have hde : d = debt := huniq d hd h
          subst hde
          simp only [if_pos h, hmax]
          have := hinv d hd
          show d.balance_owed + rep.amount + (d.amount_payable_now - rep.amount) = d.total_price
          linarith [this]
        · simp only [if_neg h]
          exact hinv d hd

theorem applyRepayOp_preserves (db : Db) (op : RepayOp)
    (hwf : RepayWF db) (hinv : BalInv db) :
    RepayWF (applyRepayOp db op) ∧ BalInv (applyRepayOp db op) := by
  cases op with
  | create debt_id amount => exact createRepayment_preserves db debt_id amount hwf hinv
  | update i amount => exact updateRepayment_preserves db i amount hwf hinv
  | delete i => exact deleteRepayment_preserves db i hwf hinv

theorem applyRepayOps_preserves (db : Db) (ops : List RepayOp)
    (hwf : RepayWF db) (hinv : BalInv db) :
    RepayWF (applyRepayOps db ops) ∧ BalInv (applyRepayOps db ops) := by
  induction ops generalizing db with
  | nil => exact ⟨hwf, hinv⟩
  | cons op tl ih =>
    rcases applyRepayOp_preserves db op hwf hinv with ⟨h1, h2⟩
    exact ih (applyRepayOp db op) h1 h2

theorem find?_append_of_none {α : Type} {l₁ l₂ : List α} {p : α → Bool}
    (h : l₁.find? p = none) : (l₁ ++ l₂).find? p = l₂.find? p := by
  induction l₁ with
  | nil => rfl
  | cons x tl ih =>
    rw [List.find?_cons] at h
    cases hx : p x with
    | true => rw [hx] at h; exact absurd h (by simp)
    | false =>
      rw [hx] at h
      rw [List.cons_append, List.find?_cons, hx]
      exact ih h

/-! ## Claim theorems -/

/-- Claim C1 (corrected), counterexample: deleting an income record
succeeds but leaves `available_stock` untouched, although a lot with the
deleted row's exact name exists (lot `A` keeps stock 5; the claim demands
5 + 3 = 8). -/
theorem income_delete_skips_restore_counterexample :
    (deleteIncome exSaleDb 1).1 = SaleResult.ok ∧
    (deleteIncome exSaleDb 1).2.purchases = [exLotA] ∧
    (deleteIncome exSaleDb 1).2.incomes = [] ∧
    exLotA.available_stock = 5 ∧ exIncomeA.pcs = 3 ∧ exIncomeA.name = exLotA.name := by
  refine ⟨rfl, rfl, rfl, rfl, rfl, rfl⟩

/-- Claim C1 (corrected, amended): on deletion of a Debt record the
matched lot (exact name, highest id) has the deleted row's `pcs` added
back to its `available_stock`, and if no lot matches the restoration is
silently skipped while the delete still succeeds; deleting an Income
record, however, never touches the purchases table. -/
theorem sale_delete_stock_restore (db : Db) (i : Nat) :
    (∀ record, db.debts.find? (fun r => r.id = i) = some record →
      (∀ lot, findLotMaxId db.purchases record.name = some lot →
        deleteDebt db i =
          (.ok, { db with
                    purchases := setLotStock db.purchases lot.id
                      (lot.available_stock + record.pcs)
                    debts := db.debts.filter (fun r => r.id ≠ i) })) ∧
      (findLotMaxId db.purchases record.name = none →
        deleteDebt db i =
          (.ok, { db with debts := db.debts.filter (fun r => r.id ≠ i) }))) ∧
    (deleteIncome db i).2.purchases = db.purchases := by
  refine ⟨fun record hrec => ⟨fun lot hlot => ?_, fun hnone => ?_⟩, ?_⟩
  · simp only [deleteDebt, hrec, hlot]
  · simp only [deleteDebt, hrec, hnone]
  · cases hfi : db.incomes.find? (fun r => r.id = i) with
    | none => simp only [deleteIncome, hfi]
    | some r => simp only [deleteIncome, hfi]

/-- Claim C1 (witness): concrete debt deletion restoring 3 units onto
lot `A`, and concrete income deletion leaving the purchases untouched. -/
theorem sale_delete_stock_restore_witness :
    exDebtSaleDb.debts.find? (fun r => r.id = 1) = some exDebtA ∧
    findLotMaxId exDebtSaleDb.purchases exDebtA.name = some exLotA ∧
    deleteDebt exDebtSaleDb 1 =
      (.ok, { exDebtSaleDb with
                purchases := setLotStock exDebtSaleDb.purchases exLotA.id
                  (exLotA.available_stock + exDebtA.pcs)
                debts := exDebtSaleDb.debts.filter (fun r => r.id ≠ 1) }) ∧
    (deleteIncome exSaleDb 1).2.purchases = exSaleDb.purchases := by
  have h1 : exDebtSaleDb.debts.find? (fun r => r.id = 1) = some exDebtA := rfl
  have h2 : findLotMaxId exDebtSaleDb.purchases exDebtA.name = some exLotA := rfl
  exact ⟨h1, h2, ((sale_delete_stock_restore exDebtSaleDb 1).1 exDebtA h1).1 exLotA h2,
    (sale_delete_stock_restore exSaleDb 1).2⟩

/-- Claim C2 (confirmed): a sale-creation request (income or debt) whose
`pcs` exceeds the matched lot's `available_stock` fails with an
insufficient-stock error carrying both quantities, and the database is
returned unchanged — no sale row, no stock write. -/
theorem insufficient_stock_rejects (db : Db) :
    (∀ rq : IncomeReq, ∀ lot,
      ¬(rq.date = "" ∨ rq.name = "" ∨ rq.pcs = 0 ∨ rq.unit_price = 0) →
      findLotMaxId db.purchases rq.name = some lot →
      lot.available_stock < rq.pcs →
      createIncome db rq = (.insufficientStock lot.available_stock rq.pcs, db)) ∧
    (∀ rq : DebtReq, ∀ lot,
      ¬(rq.date = "" ∨ rq.name = "" ∨ rq.pcs = 0 ∨ rq.unit_price = 0) →
      findLotMaxId db.purchases rq.name = some lot →
      lot.available_stock < rq.pcs →
      createDebt db rq = (.insufficientStock lot.available_stock rq.pcs, db)) := by
  constructor
  · intro rq lot hv hfind hlt
    simp only [createIncome, if_neg hv, hfind, if_pos hlt]
  · intro rq lot hv hfind hlt
    simp only [createDebt, if_neg hv, hfind, if_pos hlt]

/-- Claim C2 (witness): requesting 7 units of `A` with 5 in stock fails
with the error reporting available 5, requested 7, and the state is
unchanged. -/
theorem insufficient_stock_rejects_witness :
    findLotMaxId exSaleDb.purchases "A" = some exLotA ∧
    createIncome exSaleDb { date := "2024-02-01", name := "A", pcs := 7, unit_price := 12 }
      = (.insufficientStock 5 7, exSaleDb) ∧
    createDebt exSaleDb
        { date := "2024-02-01", name := "A", pcs := 7, unit_price := 12
          total_price := 84, amount_payable_now := some 0 }
      = (.insufficientStock 5 7, exSaleDb) := by
  have hfind : findLotMaxId exSaleDb.purchases "A" = some exLotA := rfl
  have hv : ¬(("2024-02-01" : String) = "" ∨ ("A" : String) = ""
      ∨ (7 : Int) = 0 ∨ (12 : ℚ) = 0) := by
    push_neg
    refine ⟨by decide, by decide, by decide, by norm_num⟩
  refine ⟨hfind, ?_, ?_⟩
  · exact (insufficient_stock_rejects exSaleDb).1
      { date := "2024-02-01", name := "A", pcs := 7, unit_price := 12 } exLotA hv hfind
      (by decide)
  · exact (insufficient_stock_rejects exSaleDb).2
      { date := "2024-02-01", name := "A", pcs := 7, unit_price := 12
        total_price := 84, amount_payable_now := some 0 } exLotA hv hfind
      (by decide)

/-- Claim C6 (confirmed): the lot used by sale creation is the one with
the sale's exact name and the highest id among all such lots; when no lot
carries that name the creation fails with item-not-found and no writes;
on success the stock decrement is applied to precisely that lot. -/
theorem lot_lookup_rule (db : Db) (ps : List PurchaseLot) (nm : String) :
    (∀ lot, findLotMaxId ps nm = some lot →
      lot ∈ ps ∧ lot.name = nm ∧ ∀ q ∈ ps, q.name = nm → q.id ≤ lot.id) ∧
    (findLotMaxId ps nm = none ↔ ∀ p ∈ ps, p.name ≠ nm) ∧
    (∀ rq : IncomeReq,
      ¬(rq.date = "" ∨ rq.name = "" ∨ rq.pcs = 0 ∨ rq.unit_price = 0) →
      findLotMaxId db.purchases rq.name = none →
      createIncome db rq = (.itemNotFound, db)) ∧
    (∀ rq : DebtReq,
      ¬(rq.date = "" ∨ rq.name = "" ∨ rq.pcs = 0 ∨ rq.unit_price = 0) →
      findLotMaxId db.purchases rq.name = none →
      createDebt db rq = (.itemNotFound, db)) ∧
    (∀ rq : IncomeReq, ∀ lot,
      ¬(rq.date = "" ∨ rq.name = "" ∨ rq.pcs = 0 ∨ rq.unit_price = 0) →
      findLotMaxId db.purchases rq.name = some lot →
      rq.pcs ≤ lot.available_stock →
      (createIncome db rq).2.purchases
        = setLotStock db.purchases lot.id (lot.available_stock - rq.pcs)) ∧
    (∀ rq : DebtReq, ∀ lot,
      ¬(rq.date = "" ∨ rq.name = "" ∨ rq.pcs = 0 ∨ rq.unit_price = 0) →
      findLotMaxId db.purchases rq.name = some lot →
      rq.pcs ≤ lot.available_stock →
      (createDebt db rq).2.purchases
        = setLotStock db.purchases lot.id (lot.available_stock - rq.pcs)) := by
  refine ⟨?_, ?_, ?_, ?_, ?_, ?_⟩
  · intro lot hlot
    have hmem : lot ∈ (ps.filter (fun p => p.name = nm)).argmax (fun p => p.id) :=
      Option.mem_def.mpr hlot
    have hin := List.argmax_mem hmem
    have hnm : lot.name = nm := by simpa using (List.mem_filter.mp hin).2
    refine ⟨(List.mem_filter.mp hin).1, hnm, fun q hq hqnm => ?_⟩
    exact List.le_of_mem_argmax (List.mem_filter.mpr ⟨hq, by simp [hqnm]⟩) hmem
  · rw [findLotMaxId, List.argmax_eq_none, List.filter_eq_nil_iff]
    simp
  · intro rq hv hnone
    simp only [createIncome, if_neg hv, hnone]
  · intro rq hv hnone
    simp only [createDebt, if_neg hv, hnone]
  · intro rq lot hv hlot hle
    simp only [createIncome, if_neg hv, hlot, if_neg (not_lt.mpr hle)]
  · intro rq lot hv hlot hle
    simp only [createDebt, if_neg hv, hlot, if_neg (not_lt.mpr hle)]

/-- Claim C6 (witness): with two lots named `X` (ids 1 and 2), the lookup
returns the id-2 lot; lookup of an absent name fails; a concrete income
creation decrements the id-2 lot. -/
theorem lot_lookup_rule_witness :
    findLotMaxId [exLotX1, exLotX2] "X" = some exLotX2 ∧
    exLotX2 ∈ [exLotX1, exLotX2] ∧ exLotX2.name = "X" ∧
    (∀ q ∈ [exLotX1, exLotX2], q.name = "X" → q.id ≤ exLotX2.id) ∧
    (findLotMaxId [exLotX1, exLotX2] "Z" = none ↔
      ∀ p ∈ [exLotX1, exLotX2], p.name ≠ "Z") := by
  have h := (lot_lookup_rule emptyDb [exLotX1, exLotX2] "X").1 exLotX2 rfl
  exact ⟨rfl, h.1, h.2.1, h.2.2, (lot_lookup_rule emptyDb [exLotX1, exLotX2] "Z").2.1⟩

/-- Claim C10 (confirmed): updating a purchase with a `pcs` value that
differs from the stored one shifts `available_stock` by the difference
and floors it at zero; a request without `pcs` leaves both fields
unchanged. -/
theorem purchase_update_stock (db : Db) (i : Nat) (record : PurchaseLot)
    (h : db.purchases.find? (fun p => p.id = i) = some record) :
    (∀ p2 : Int, p2 ≠ record.pcs →
      (updatePurchase db i (some p2)).2.purchases.find? (fun p => p.id = i)
        = some { record with
                   pcs := p2,
                   available_stock := max 0 (record.available_stock + (p2 - record.pcs)) }) ∧
    (updatePurchase db i none).2.purchases.find? (fun p => p.id = i) = some record := by
  constructor
  · intro p2 hne
    simp only [updatePurchase, h]
    rw [show (newAvailableStock (some p2) record.pcs record.available_stock)
        = max 0 (record.available_stock + (p2 - record.pcs)) by
      simp only [newAvailableStock, if_pos hne]]
    rw [find?_map_ite db.purchases (fun p => p.id) i
      (fun p => { p with
                    pcs := (some p2).getD record.pcs,
                    available_stock := max 0 (record.available_stock + (p2 - record.pcs)) })
      (fun _ => rfl)]
    rw [h]
    rfl
  · simp only [updatePurchase, h]
    rw [show (newAvailableStock none record.pcs record.available_stock)
        = record.available_stock from rfl]
    rw [find?_map_ite db.purchases (fun p => p.id) i
      (fun p => { p with
                    pcs := (none : Option Int).getD record.pcs,
                    available_stock := record.available_stock })
      (fun _ => rfl)]
    rw [h]
    rfl

/-- Claim C10 (witness): updating lot `A` (pcs 10, stock 5) to pcs 2
drops the stock to `max 0 (5 + (2 - 10)) = 0`; omitting `pcs` keeps the
record. -/
theorem purchase_update_stock_witness :
    exSaleDb.purchases.find? (fun p => p.id = 1) = some exLotA ∧
    (updatePurchase exSaleDb 1 (some 2)).2.purchases.find? (fun p => p.id = 1)
      = some { exLotA with
               pcs := 2,
               available_stock := max 0 (exLotA.available_stock + (2 - exLotA.pcs)) } ∧
    (updatePurchase exSaleDb 1 none).2.purchases.find? (fun p => p.id = 1) = some exLotA := by
  have h : exSaleDb.purchases.find? (fun p => p.id = 1) = some exLotA := rfl
  exact ⟨h, (purchase_update_stock exSaleDb 1 exLotA h).1 2 (by decide),
    (purchase_update_stock exSaleDb 1 exLotA h).2⟩

/-- Claim C4 (confirmed): creating a repayment of positive amount `a`
fails with a 404 when the debt is absent, fails reporting the balance
when `a` exceeds `balance_owed`, and on success inserts the repayment
row with receipt number REPAY- followed by the id zero-padded to six
digits, decreases `balance_owed` by `a` and increases
`amount_payable_now` by `a`. -/
theorem create_repayment_contract (db : Db) (debt_id : Nat) (a : ℚ) (ha : 0 < a) :
    (findDebt db debt_id = none → createRepayment db debt_id a = (.debtNotFound, db)) ∧
    (∀ debt, findDebt db debt_id = some debt → debt.balance_owed < a →
      createRepayment db debt_id a = (.exceedsBalance debt.balance_owed, db)) ∧
    (∀ debt, findDebt db debt_id = some debt → a ≤ debt.balance_owed →
      createRepayment db debt_id a =
        (.ok,
          { db with
              repayments := db.repayments ++
                [{ id := db.nextRepId, debt_id := debt_id, amount := a
                   receipt_number := some (receiptNumber db.nextRepId) }]
              debts := setDebtBalances db.debts debt_id
                (debt.amount_payable_now + a) (debt.balance_owed - a)
              nextRepId := db.nextRepId + 1 }) ∧
      findDebt (createRepayment db debt_id a).2 debt_id =
        some { debt with
                 balance_owed := debt.balance_owed - a,
                 amount_payable_now := debt.amount_payable_now + a }) := by
  have hna : ¬ a ≤ 0 := not_le.mpr ha
  refine ⟨fun hnone => ?_, fun debt hfd hlt => ?_, fun debt hfd hle => ⟨?_, ?_⟩⟩
  · simp only [createRepayment, if_neg hna, hnone]
  · simp only [createRepayment, if_neg hna, hfd, if_pos hlt]
  · simp only [createRepayment, if_neg hna, hfd, if_neg (not_lt.mpr hle)]
  · simp only [createRepayment, if_neg hna, hfd, if_neg (not_lt.mpr hle)]
    show (setDebtBalances db.debts debt_id
        (debt.amount_payable_now + a) (debt.balance_owed - a)).find?
          (fun d => d.id = debt_id) = _
    rw [findDebt_setDebtBalances]
    have hfd2 : db.debts.find? (fun d => d.id = debt_id) = some debt := hfd
    rw [hfd2]
    rfl

/-- Claim C4 (witness): paying 400 on the fresh debt of 1000 succeeds,
stamps receipt REPAY-000001, and moves the balances; an absent debt and
an excessive amount are rejected with the state unchanged. -/
theorem create_repayment_contract_witness :
    findDebt exGoodRepayDb 7 = none ∧
    createRepayment exGoodRepayDb 7 400 = (.debtNotFound, exGoodRepayDb) ∧
    findDebt exGoodRepayDb 1 = some (mkDebtAtCreation 1 1000 0) ∧
    ((mkDebtAtCreation 1 1000 0).balance_owed < 1200 ∧
      createRepayment exGoodRepayDb 1 1200
        = (.exceedsBalance (mkDebtAtCreation 1 1000 0).balance_owed, exGoodRepayDb)) ∧
    ((400 : ℚ) ≤ (mkDebtAtCreation 1 1000 0).balance_owed ∧
      receiptNumber exGoodRepayDb.nextRepId = "REPAY-000001" ∧
      findDebt (createRepayment exGoodRepayDb 1 400).2 1 =
        some { mkDebtAtCreation 1 1000 0 with
                 balance_owed := (mkDebtAtCreation 1 1000 0).balance_owed - 400,
                 amount_payable_now := (mkDebtAtCreation 1 1000 0).amount_payable_now + 400 }) := by
  have hpos : (0 : ℚ) < 400 := by norm_num
  have hpos2 : (0 : ℚ) < 1200 := by norm_num
  have hnone : findDebt exGoodRepayDb 7 = none := rfl
  have hsome : findDebt exGoodRepayDb 1 = some (mkDebtAtCreation 1 1000 0) := rfl
  have hlt : (mkDebtAtCreation 1 1000 0).balance_owed < 1200 := by
    show (1000 : ℚ) - 0 < 1200
    norm_num
  have hle : (400 : ℚ) ≤ (mkDebtAtCreation 1 1000 0).balance_owed := by
    show (400 : ℚ) ≤ 1000 - 0
    norm_num
  refine ⟨hnone, (create_repayment_contract exGoodRepayDb 7 400 hpos).1 hnone,
    hsome, ⟨hlt, (create_repayment_contract exGoodRepayDb 1 1200 hpos2).2.1
      (mkDebtAtCreation 1 1000 0) hsome hlt⟩,
    ⟨hle, ?_, ((create_repayment_contract exGoodRepayDb 1 400 hpos).2.2
      (mkDebtAtCreation 1 1000 0) hsome hle).2⟩⟩
  show receiptNumber 1 = "REPAY-000001"
  rw [receiptNumber, padStart6]
  rfl

/-- Claim C5 (corrected), counterexample: on a debt created with
`total_price = 95` and `amount_payable_now = -5` (never validated), a
repayment of 100 followed by its deletion leaves `amount_payable_now` at
0 instead of restoring -5: the delete's `max(0, ...)` floor engages, so
create-then-delete does not return the debt to its pre-creation state. -/
theorem repayment_roundtrip_counterexample :
    (findDebt exBadRepayDb 1).map (fun d => (d.balance_owed, d.amount_payable_now))
      = some (100, -5) ∧
    (findDebt (deleteRepayment (createRepayment exBadRepayDb 1 100).2 1).2 1).map
        (fun d => (d.balance_owed, d.amount_payable_now))
      = some (100, 0) ∧
    (((100 : ℚ), (0 : ℚ)) ≠ ((100 : ℚ), (-5 : ℚ))) := by
  refine ⟨?_, ?_, by norm_num⟩
  · show some ((95 : ℚ) - (-5), (-5 : ℚ)) = some (100, -5)
    norm_num
  · have h1 : ¬ (100 : ℚ) ≤ 0 := by norm_num
    have h2 : findDebt exBadRepayDb 1 = some (mkDebtAtCreation 1 95 (-5)) := rfl
    have h3 : ¬ (100 : ℚ) > (mkDebtAtCreation 1 95 (-5)).balance_owed := by
      show ¬ (100 : ℚ) > 95 - (-5)
      norm_num
    have hc : createRepayment exBadRepayDb 1 100 = (.ok, exBadDb1) := by
      simp only [createRepayment, if_neg h1, h2, if_neg h3]
      rfl
    rw [hc]
    have hfr : findRep exBadDb1 1 = some exRep100 := rfl
    have hfd : findDebt exBadDb1 1 = some { mkDebtAtCreation 1 95 (-5) with
        amount_payable_now := (mkDebtAtCreation 1 95 (-5)).amount_payable_now + 100
        balance_owed := (mkDebtAtCreation 1 95 (-5)).balance_owed - 100 } := rfl
    simp only [deleteRepayment, hfr, hfd]
    show some ((((95 : ℚ) - (-5)) - 100) + 100, max 0 (((-5 : ℚ) + 100) - 100)) = some (100, 0)
    norm_num

/-- Claim C5 (corrected, amended): provided the debt's
`amount_payable_now` is non-negative before the repayment is created
(so the delete's `max(0, ...)` floor is inert), creating a repayment and
then deleting it restores both `balance_owed` and `amount_payable_now`
to their pre-creation values. -/
theorem repayment_roundtrip (db : Db) (debt_id : Nat) (a : ℚ) (debt : DebtRow)
    (hfd : findDebt db debt_id = some debt) (ha : 0 < a) (hle : a ≤ debt.balance_owed)
    (hpay : 0 ≤ debt.amount_payable_now)
    (hfresh : ∀ r ∈ db.repayments, r.id ≠ db.nextRepId) :
    (findDebt (deleteRepayment (createRepayment db debt_id a).2 db.nextRepId).2 debt_id).map
        (fun d => (d.balance_owed, d.amount_payable_now))
      = some (debt.balance_owed, debt.amount_payable_now) := by
  have hna : ¬ a ≤ 0 := not_le.mpr ha
  have hstate1 : (createRepayment db debt_id a).2 =
      { db with
          repayments := db.repayments ++
            [{ id := db.nextRepId, debt_id := debt_id, amount := a
               receipt_number := some (receiptNumber db.nextRepId) }]
          debts := setDebtBalances db.debts debt_id
            (debt.amount_payable_now + a) (debt.balance_owed - a)
          nextRepId := db.nextRepId + 1 } := by
    simp only [createRepayment, if_neg hna, hfd, if_neg (not_lt.mpr hle)]
  rw [hstate1]
  have hrep : (db.repayments ++
      [({ id := db.nextRepId, debt_id := debt_id, amount := a
          receipt_number := some (receiptNumber db.nextRepId) } : Repayment)]).find?
        (fun r => r.id = db.nextRepId)
      = some { id := db.nextRepId, debt_id := debt_id, amount := a
               receipt_number := some (receiptNumber db.nextRepId) } := by
    rw [find?_append_of_none (List.find?_eq_none.mpr (by
      intro r hr
      simpa using hfresh r hr))]
    simp
  have hfd2 : db.debts.find? (fun d => d.id = debt_id) = some debt := hfd
  have hdb1 : (setDebtBalances db.debts debt_id
      (debt.amount_payable_now + a) (debt.balance_owed - a)).find?
        (fun d => d.id = debt_id)
      = some { debt with
                 amount_payable_now := debt.amount_payable_now + a,
                 balance_owed := debt.balance_owed - a } := by
    rw [findDebt_setDebtBalances, hfd2]
    rfl
  have hstep : deleteRepayment
      { db with
          repayments := db.repayments ++
            [{ id := db.nextRepId, debt_id := debt_id, amount := a
               receipt_number := some (receiptNumber db.nextRepId) }]
          debts := setDebtBalances db.debts debt_id
            (debt.amount_payable_now + a) (debt.balance_owed - a)
          nextRepId := db.nextRepId + 1 } db.nextRepId
      = (.ok,
          { db with
              repayments := (db.repayments ++
                [({ id := db.nextRepId, debt_id := debt_id, amount := a
                    receipt_number := some (receiptNumber db.nextRepId) } : Repayment)]).filter
                  (fun r => r.id ≠ db.nextRepId)
              debts := setDebtBalances
                (setDebtBalances db.debts debt_id
                  (debt.amount_payable_now + a) (debt.balance_owed - a)) debt_id
                (max 0 ((debt.amount_payable_now + a) - a))
                ((debt.balance_owed - a) + a)
              nextRepId := db.nextRepId + 1 }) := by
    simp only [deleteRepayment, findRep, findDebt, hrep, hdb1]
  rw [hstep]
  show ((setDebtBalances
      (setDebtBalances db.debts debt_id
        (debt.amount_payable_now + a) (debt.balance_owed - a)) debt_id
      (max 0 ((debt.amount_payable_now + a) - a))
      ((debt.balance_owed - a) + a)).find? (fun d => d.id = debt_id)).map
        (fun d => (d.balance_owed, d.amount_payable_now))
    = some (debt.balance_owed, debt.amount_payable_now)
  rw [findDebt_setDebtBalances]
  rw [hdb1]
  show some (((debt.balance_owed - a) + a), max 0 ((debt.amount_payable_now + a) - a))
    = some (debt.balance_owed, debt.amount_payable_now)
  rw [sub_add_cancel, add_sub_cancel_right, max_eq_right hpay]

/-- Claim C5 (witness): the spec's own scenario, on a debt of 1000 with
`amount_payable_now = 0`: create a repayment of 400, delete it, and the
debt is back at balance 1000, payable 0. -/
theorem repayment_roundtrip_witness :
    (findDebt (deleteRepayment (createRepayment exGoodRepayDb 1 400).2
        exGoodRepayDb.nextRepId).2 1).map
        (fun d => (d.balance_owed, d.amount_payable_now))
      = some ((mkDebtAtCreation 1 1000 0).balance_owed,
          (mkDebtAtCreation 1 1000 0).amount_payable_now) := by
  refine repayment_roundtrip exGoodRepayDb 1 400 (mkDebtAtCreation 1 1000 0) rfl
    (by norm_num) ?_ ?_ (by intro r hr; simp [exGoodRepayDb, emptyDb] at hr)
  · show (400 : ℚ) ≤ 1000 - 0
    norm_num
  · show (0 : ℚ) ≤ 0
    norm_num

/-- Claim C3 (corrected), counterexample: with only the balance equation
assumed, the invariant is not preserved across repayment operations: the
debt stored for `total_price = 95`, `amount_payable_now = -5` satisfies
`balance_owed + amount_payable_now = total_price`, yet after the history
create 100, delete the equation fails (the delete floors
`amount_payable_now` at 0). -/
theorem repayment_invariant_counterexample :
    BalInv exBadRepayDb ∧
    ¬ BalInv (applyRepayOps exBadRepayDb [.create 1 100, .delete 1]) := by
  constructor
  · intro d hd
    simp only [exBadRepayDb, emptyDb, List.mem_singleton] at hd
    rw [hd]
    show ((95 : ℚ) - (-5)) + (-5) = 95
    norm_num
  · intro hinv
    have h1 : ¬ (100 : ℚ) ≤ 0 := by norm_num
    have h2 : findDebt exBadRepayDb 1 = some (mkDebtAtCreation 1 95 (-5)) := rfl
    have h3 : ¬ (100 : ℚ) > (mkDebtAtCreation 1 95 (-5)).balance_owed := by
      show ¬ (100 : ℚ) > 95 - (-5)
      norm_num
    have hc : createRepayment exBadRepayDb 1 100 = (.ok, exBadDb1) := by
      simp only [createRepayment, if_neg h1, h2, if_neg h3]
      rfl
    have happ : applyRepayOps exBadRepayDb [.create 1 100, .delete 1]
        = (deleteRepayment (createRepayment exBadRepayDb 1 100).2 1).2 := rfl
    rw [happ, hc] at hinv
    have hfr : findRep exBadDb1 1 = some exRep100 := rfl
    have hfd : findDebt exBadDb1 1 = some { mkDebtAtCreation 1 95 (-5) with
        amount_payable_now := (mkDebtAtCreation 1 95 (-5)).amount_payable_now + 100
        balance_owed := (mkDebtAtCreation 1 95 (-5)).balance_owed - 100 } := rfl
    simp only [deleteRepayment, hfr, hfd] at hinv
    have hmem := hinv
      { mkDebtAtCreation 1 95 (-5) with
          amount_payable_now :=
            max 0 (((mkDebtAtCreation 1 95 (-5)).amount_payable_now + 100) - 100)
          balance_owed := ((mkDebtAtCreation 1 95 (-5)).balance_owed - 100) + 100 }
      (List.mem_singleton.mpr rfl)
    revert hmem
    show ¬ ((((95 : ℚ) - (-5)) - 100) + 100 + max 0 (((-5 : ℚ) + 100) - 100) = 95)
    norm_num

/-- Claim C3 (corrected, amended): the balance equation
`balance_owed + amount_payable_now = total_price` for every debt is
preserved by every sequence of repayment create/update/delete operations
(hence holds after each operation of any history), provided the database
is additionally well-formed: unique ids, fresh repayment counter,
positive repayment amounts, and each debt's `amount_payable_now` at
least the sum of its repayments' amounts — all true at debt creation
when the supplied `amount_payable_now` is non-negative.  The bare
equation alone is not preserved (see the counterexample). -/
theorem repayment_invariant_preserved (db : Db) (ops : List RepayOp)
    (hwf : RepayWF db) (hinv : BalInv db) :
    BalInv (applyRepayOps db ops) ∧ RepayWF (applyRepayOps db ops) :=
  ⟨(applyRepayOps_preserves db ops hwf hinv).2, (applyRepayOps_preserves db ops hwf hinv).1⟩

/-- Claim C3 (witness): on the fresh debt of 1000 (payable 0), the
history create 400, update to 250, create 300, delete keeps the balance
equation true. -/
theorem repayment_invariant_preserved_witness :
    BalInv (applyRepayOps exGoodRepayDb
      [.create 1 400, .update 1 (some 250), .create 1 300, .delete 1]) ∧
    RepayWF (applyRepayOps exGoodRepayDb
      [.create 1 400, .update 1 (some 250), .create 1 300, .delete 1]) := by
  refine repayment_invariant_preserved exGoodRepayDb
    [.create 1 400, .update 1 (some 250), .create 1 300, .delete 1] ?_ ?_
  · refine ⟨by simp [exGoodRepayDb, emptyDb], by simp [exGoodRepayDb, emptyDb],
      ?_, ?_, ?_⟩
    · intro r hr
      simp [exGoodRepayDb, emptyDb] at hr
    · intro r hr
      simp [exGoodRepayDb, emptyDb] at hr
    · intro d hd
      simp only [exGoodRepayDb, emptyDb, List.mem_singleton] at hd
      rw [hd]
      show repSumL [] (mkDebtAtCreation 1 1000 0).id ≤ (0 : ℚ)
      simp [repSumL]
  · intro d hd
    simp only [exGoodRepayDb, emptyDb, List.mem_singleton] at hd
    rw [hd]
    show ((1000 : ℚ) - 0) + 0 = 1000
    norm_num

theorem mem_gain_rows {ps : List PurchaseLot} {incomes : List IncomeRow}
    {debts : List DebtRow} {start stop : String} {r : GainRow}
    (hr : r ∈ (getGainLoss ps incomes debts start stop).gain) :
    (∃ s, s ∈ incomes ∧ dateInRange s.date start stop = true ∧
        r = mkIncomeGainRow (gainPurchaseList ps) s) ∨
    (∃ d, d ∈ debts ∧ dateInRange d.date start stop = true ∧
        r = mkDebtGainRow (gainPurchaseList ps) d) := by
  simp only [getGainLoss] at hr
  rw [mem_insertionSort] at hr
  rcases List.mem_append.mp hr with h | h
  · rcases List.mem_map.mp h with ⟨s, hs, rfl⟩
    rw [mem_insertionSort] at hs
    rcases List.mem_filter.mp hs with ⟨hs1, hs2⟩
    exact Or.inl ⟨s, hs1, hs2, rfl⟩
  · rcases List.mem_map.mp h with ⟨d, hd, rfl⟩
    rw [mem_insertionSort] at hd
    rcases List.mem_filter.mp hd with ⟨hd1, hd2⟩
    exact Or.inr ⟨d, hd1, hd2, rfl⟩

/-- Claim C7 (corrected), counterexample: two lots named `X`, the
earlier (insertion order) at unit price 10, the later at 20.  The gain
route prices the sale against the later lot (unit price 20) because its
lot scan is ordered by date descending, while the claim's
insertion-order rule picks the earlier lot (unit price 10). -/
theorem gain_cost_basis_counterexample :
    ((getGainLoss [exLotX1, exLotX2] [exIncomeX] [] "2024-01-01" "2024-12-31").gain.map
        (fun r => r.cost_unit_price)) = [exLotX2.unit_price] ∧
    (specCostLotByInsertionOrder [exLotX1, exLotX2] "X").map (fun p => p.unit_price)
      = some exLotX1.unit_price ∧
    exLotX2.unit_price = 20 ∧ exLotX1.unit_price = 10 ∧ ((20 : ℚ) ≠ 10) := by
  refine ⟨rfl, rfl, rfl, rfl, by norm_num⟩

/-- Claim C7 (corrected, amended): for every row of the gain route's
output, the cost-basis lot is the first name match in the lot list
ordered by date descending then created_at descending (the query order,
not insertion order); `cost_unit_price` is that lot's unit price or 0
when none matches; `total_cost = cost_unit_price * pcs`;
`gain_loss = total_sale - total_cost`; and the row stems from an
income or debt row in the date range with `total_sale` equal to its
stored `total_price`, falling back to `unit_price * pcs` when that value
is missing/falsy (stored as 0). -/
theorem gain_row_cost_basis (ps : List PurchaseLot) (incomes : List IncomeRow)
    (debts : List DebtRow) (start stop : String) :
    ∀ r ∈ (getGainLoss ps incomes debts start stop).gain,
      (r.cost_unit_price
          = (((gainPurchaseList ps).find? (fun p => p.name = r.name)).map
              (fun p => p.unit_price)).getD 0 ∧
        r.total_cost = r.cost_unit_price * (r.pcs : ℚ) ∧
        r.gain_loss = r.total_sale - r.total_cost ∧
        ((∃ s, s ∈ incomes ∧ dateInRange s.date start stop = true ∧ r.name = s.name ∧
            r.pcs = s.pcs ∧
            r.total_sale
              = (if s.total_price = 0 then s.unit_price * (s.pcs : ℚ) else s.total_price)) ∨
          (∃ d, d ∈ debts ∧ dateInRange d.date start stop = true ∧ r.name = d.name ∧
            r.pcs = d.pcs ∧
            r.total_sale
              = (if d.total_price = 0 then d.unit_price * (d.pcs : ℚ) else d.total_price)))) := by
  intro r hr
  rcases mem_gain_rows hr with ⟨s, hs, hrange, rfl⟩ | ⟨d, hd, hrange, rfl⟩
  · exact ⟨rfl, rfl, rfl, Or.inl ⟨s, hs, hrange, rfl, rfl, rfl⟩⟩
  · exact ⟨rfl, rfl, rfl, Or.inr ⟨d, hd, hrange, rfl, rfl, rfl⟩⟩

/-- Claim C7 (witness): the single output row for the `X` sale satisfies
the amended cost-basis characterisation. -/
theorem gain_row_cost_basis_witness :
    exGainRow ∈ (getGainLoss [exLotX1, exLotX2] [exIncomeX] [] "2024-01-01" "2024-12-31").gain ∧
    (exGainRow.cost_unit_price
        = (((gainPurchaseList [exLotX1, exLotX2]).find?
            (fun p => p.name = exGainRow.name)).map (fun p => p.unit_price)).getD 0 ∧
      exGainRow.total_cost = exGainRow.cost_unit_price * (exGainRow.pcs : ℚ) ∧
      exGainRow.gain_loss = exGainRow.total_sale - exGainRow.total_cost ∧
      ((∃ s, s ∈ [exIncomeX] ∧ dateInRange s.date "2024-01-01" "2024-12-31" = true ∧
          exGainRow.name = s.name ∧ exGainRow.pcs = s.pcs ∧
          exGainRow.total_sale
            = (if s.total_price = 0 then s.unit_price * (s.pcs : ℚ) else s.total_price)) ∨
        (∃ d, d ∈ ([] : List DebtRow) ∧ dateInRange d.date "2024-01-01" "2024-12-31" = true ∧
          exGainRow.name = d.name ∧ exGainRow.pcs = d.pcs ∧
          exGainRow.total_sale
            = (if d.total_price = 0 then d.unit_price * (d.pcs : ℚ) else d.total_price)))) := by
  have hmem : exGainRow
      ∈ (getGainLoss [exLotX1, exLotX2] [exIncomeX] [] "2024-01-01" "2024-12-31").gain := by
    show exGainRow ∈ [exGainRow]
    exact List.mem_singleton.mpr rfl
  exact ⟨hmem, gain_row_cost_basis [exLotX1, exLotX2] [exIncomeX] []
    "2024-01-01" "2024-12-31" exGainRow hmem⟩

/-- Claim C8 (confirmed): the gain route's aggregate totals are exactly
the sums of the per-row `total_cost`, `total_sale` and `gain_loss` over
the merged output list, and every row satisfies
`gain_loss = total_sale - total_cost`. -/
theorem gain_totals_sum (ps : List PurchaseLot) (incomes : List IncomeRow)
    (debts : List DebtRow) (start stop : String) :
    (getGainLoss ps incomes debts start stop).totals.total_cost
      = ((getGainLoss ps incomes debts start stop).gain.map (fun r => r.total_cost)).sum ∧
    (getGainLoss ps incomes debts start stop).totals.total_sale
      = ((getGainLoss ps incomes debts start stop).gain.map (fun r => r.total_sale)).sum ∧
    (getGainLoss ps incomes debts start stop).totals.total_gain_loss
      = ((getGainLoss ps incomes debts start stop).gain.map (fun r => r.gain_loss)).sum ∧
    ∀ r ∈ (getGainLoss ps incomes debts start stop).gain,
      r.gain_loss = r.total_sale - r.total_cost := by
  refine ⟨?_, ?_, ?_, ?_⟩
  · simp only [getGainLoss, gainTotals_foldl, zero_add]
  · simp only [getGainLoss, gainTotals_foldl, zero_add]
  · simp only [getGainLoss, gainTotals_foldl, zero_add]
  · intro r hr
    rcases mem_gain_rows hr with ⟨s, _, _, rfl⟩ | ⟨d, _, _, rfl⟩
    · rfl
    · rfl

/-- Claim C8 (witness): on the concrete `X` scenario the totals equal
the per-row sums and the row's gain is sale minus cost. -/
theorem gain_totals_sum_witness :
    (getGainLoss [exLotX1, exLotX2] [exIncomeX] [] "2024-01-01" "2024-12-31").totals.total_cost
      = ((getGainLoss [exLotX1, exLotX2] [exIncomeX] [] "2024-01-01" "2024-12-31").gain.map
          (fun r => r.total_cost)).sum ∧
    exGainRow ∈ (getGainLoss [exLotX1, exLotX2] [exIncomeX] [] "2024-01-01" "2024-12-31").gain ∧
    exGainRow.gain_loss = exGainRow.total_sale - exGainRow.total_cost := by
  have hmem : exGainRow
      ∈ (getGainLoss [exLotX1, exLotX2] [exIncomeX] [] "2024-01-01" "2024-12-31").gain := by
    show exGainRow ∈ [exGainRow]
    exact List.mem_singleton.mpr rfl
  exact ⟨(gain_totals_sum [exLotX1, exLotX2] [exIncomeX] [] "2024-01-01" "2024-12-31").1,
    hmem,
    (gain_totals_sum [exLotX1, exLotX2] [exIncomeX] [] "2024-01-01" "2024-12-31").2.2.2
      exGainRow hmem⟩

/-- Claim C9 (confirmed): a lot yields an alert row iff its threshold is
positive and its stock is at or below the threshold; the alert list is
sorted ascending by `available_stock`; and each alert's `pcs_sold` is
the sum of income `pcs` plus debt `pcs` over rows carrying the lot's
name. -/
theorem deficiency_alerts_spec (ps : List PurchaseLot) (incomes : List IncomeRow)
    (debts : List DebtRow) :
    (∀ p ∈ ps,
      ((∃ n, ({ lot := p, pcs_sold := n } : AlertRow)
          ∈ getDeficiencyAlerts ps incomes debts) ↔
        (0 < p.stock_deficiency_threshold ∧
          p.available_stock ≤ p.stock_deficiency_threshold))) ∧
    List.Sorted (fun a b : AlertRow => a.lot.available_stock ≤ b.lot.available_stock)
      (getDeficiencyAlerts ps incomes debts) ∧
    (∀ a ∈ getDeficiencyAlerts ps incomes debts,
      a.pcs_sold = pcsSold incomes debts a.lot.name) := by
  refine ⟨?_, ?_, ?_⟩
  · intro p hp
    constructor
    · rintro ⟨n, hn⟩
      simp only [getDeficiencyAlerts] at hn
      rcases List.mem_map.mp hn with ⟨q, hq, heq⟩
      have hq2 : q = p := congrArg AlertRow.lot heq
      subst hq2
      rw [mem_insertionSort] at hq
      have := (List.mem_filter.mp hq).2
      simpa using this
    · rintro ⟨h1, h2⟩
      refine ⟨pcsSold incomes debts p.name, ?_⟩
      simp only [getDeficiencyAlerts]
      refine List.mem_map.mpr ⟨p, ?_, rfl⟩
      rw [mem_insertionSort]
      exact List.mem_filter.mpr ⟨hp, by simpa using And.intro h1 h2⟩
  · simp only [getDeficiencyAlerts]
    exact List.Pairwise.map _ (fun a b h => h)
      (List.sorted_insertionSort alertOrder _)
  · intro a ha
    simp only [getDeficiencyAlerts] at ha
    rcases List.mem_map.mp ha with ⟨q, _, rfl⟩
    rfl

/-- Claim C9 (witness): the lot with stock 3 and threshold 5 produces an
alert with `pcs_sold = 3 + 3 = 6` from one income and one debt row of
its name; the lot with threshold 0 produces none. -/
theorem deficiency_alerts_spec_witness :
    ((∃ n, ({ lot := exAlertLot, pcs_sold := n } : AlertRow)
        ∈ getDeficiencyAlerts [exLotA, exAlertLot] [exIncomeA] [exDebtA]) ↔
      (0 < exAlertLot.stock_deficiency_threshold ∧
        exAlertLot.available_stock ≤ exAlertLot.stock_deficiency_threshold)) ∧
    ((∃ n, ({ lot := exLotA, pcs_sold := n } : AlertRow)
        ∈ getDeficiencyAlerts [exLotA, exAlertLot] [exIncomeA] [exDebtA]) ↔
      (0 < exLotA.stock_deficiency_threshold ∧
        exLotA.available_stock ≤ exLotA.stock_deficiency_threshold)) ∧
    List.Sorted (fun a b : AlertRow => a.lot.available_stock ≤ b.lot.available_stock)
      (getDeficiencyAlerts [exLotA, exAlertLot] [exIncomeA] [exDebtA]) ∧
    pcsSold [exIncomeA] [exDebtA] exAlertLot.name = 6 := by
  refine ⟨(deficiency_alerts_spec [exLotA, exAlertLot] [exIncomeA] [exDebtA]).1 exAlertLot
      (by simp),
    (deficiency_alerts_spec [exLotA, exAlertLot] [exIncomeA] [exDebtA]).1 exLotA
      (by simp),
    (deficiency_alerts_spec [exLotA, exAlertLot] [exIncomeA] [exDebtA]).2.1, ?_⟩
  show ((([exIncomeA].filter (fun r => r.name = "A")).map (fun r => r.pcs)).sum
      + (([exDebtA].filter (fun r => r.name = "A")).map (fun r => r.pcs)).sum) = 6
  decide

end Viten
